import Mathlib

/-!
Verification of the asynchronous image-generation and caching pipeline of the
FoulShot.Apartment repository: the Redux story slice (queue reducers, the batch
processing thunk, cache hydration), the retrying Gemini image client, and the
IndexedDB-backed persistent image cache.

JavaScript objects used as string-keyed maps are embedded as association lists
with no duplicate keys; property read, write and delete are `jsGet`, `jsSet`
and `jsDelete`.  JavaScript truthiness of optional string and boolean fields is
`truthyOptStr` and `truthyOptBool`.
-/

/-- A JavaScript object used as a map from string keys to values of type α. -/
abbrev JsMap (α : Type) := List (String × α)

/-- Property read: the value at the first occurrence of the key, if any. -/
def jsGet {α : Type} (m : JsMap α) (k : String) : Option α :=
  match m with
  | [] => none
  | p :: rest => if p.1 = k then some p.2 else jsGet rest k

/-- Property write: replace the value at an existing key in place, otherwise
append the new key at the end, as JavaScript object assignment does. -/
def jsSet {α : Type} (m : JsMap α) (k : String) (v : α) : JsMap α :=
  match m with
  | [] => [(k, v)]
  | p :: rest => if p.1 = k then (k, v) :: rest else p :: jsSet rest k v

/-- Property delete: remove the key, as the JavaScript delete operator does. -/
def jsDelete {α : Type} (m : JsMap α) (k : String) : JsMap α :=
  match m with
  | [] => []
  | p :: rest => if p.1 = k then jsDelete rest k else p :: jsDelete rest k

/-- JavaScript truthiness of a possibly-absent string property:
undefined and the empty string are falsy. -/
def truthyOptStr : Option String → Bool
  | none => false
  | some s => !(s = "")

/-- JavaScript truthiness of a possibly-absent boolean property:
undefined and false are falsy. -/
def truthyOptBool : Option Bool → Bool
  | none => false
  | some b => b

@[simp] theorem jsGet_nil {α : Type} (k : String) : jsGet ([] : JsMap α) k = none := rfl

theorem jsGet_cons {α : Type} (p : String × α) (rest : JsMap α) (k : String) :
    jsGet (p :: rest) k = if p.1 = k then some p.2 else jsGet rest k := rfl

@[simp] theorem jsGet_jsSet_same {α : Type} (m : JsMap α) (k : String) (v : α) :
    jsGet (jsSet m k v) k = some v := by
  induction m with
  | nil => simp [jsSet, jsGet]
  | cons p rest ih =>
    by_cases h : p.1 = k
    · simp [jsSet, jsGet, h]
    · simp [jsSet, jsGet, h, ih]

@[simp] theorem jsGet_jsSet_other {α : Type} (m : JsMap α) (k k' : String) (v : α)
    (hne : k ≠ k') : jsGet (jsSet m k v) k' = jsGet m k' := by
  induction m with
  | nil => simp [jsSet, jsGet, hne]
  | cons p rest ih =>
    by_cases h : p.1 = k
    · subst h
      simp [jsSet, jsGet, hne]
    · simp only [jsSet, jsGet, if_neg h]
      by_cases h' : p.1 = k'
      · simp [h']
      · simp [h', ih]

@[simp] theorem jsGet_jsDelete_same {α : Type} (m : JsMap α) (k : String) :
    jsGet (jsDelete m k) k = none := by
  induction m with
  | nil => simp [jsDelete]
  | cons p rest ih =>
    by_cases h : p.1 = k
    · simp [jsDelete, h, ih]
    · simp [jsDelete, jsGet, h, ih]

@[simp] theorem jsGet_jsDelete_other {α : Type} (m : JsMap α) (k k' : String)
    (hne : k ≠ k') : jsGet (jsDelete m k) k' = jsGet m k' := by
  induction m with
  | nil => simp [jsDelete]
  | cons p rest ih =>
    by_cases h : p.1 = k
    · subst h
      simp [jsDelete, jsGet, hne, Ne.symm hne, ih]
    · simp only [jsDelete, if_neg h, jsGet]
      by_cases h' : p.1 = k'
      · simp [h']
      · simp [h', ih]

theorem jsGet_append_of_none {α : Type} (a b : JsMap α) (k : String)
    (h : jsGet a k = none) : jsGet (a ++ b) k = jsGet b k := by
  induction a with
  | nil => simp
  | cons p rest ih =>
    by_cases hp : p.1 = k
    · simp [jsGet, hp] at h
    · simp only [jsGet, if_neg hp] at h
      simp [jsGet, hp, ih h]

theorem jsSet_eq_append_of_none {α : Type} (m : JsMap α) (k : String) (v : α)
    (h : jsGet m k = none) : jsSet m k v = m ++ [(k, v)] := by
  induction m with
  | nil => simp [jsSet]
  | cons p rest ih =>
    by_cases hp : p.1 = k
    · simp [jsGet, hp] at h
    · simp only [jsGet, if_neg hp] at h
      simp [jsSet, hp, ih h]

/-- If a key is bound in a map with no duplicate keys, `jsGet` returns its value. -/
theorem jsGet_of_mem_of_nodup {α : Type} (m : JsMap α) (k : String) (v : α)
    (hmem : (k, v) ∈ m) (hnd : (m.map Prod.fst).Nodup) : jsGet m k = some v := by
  induction m with
  | nil => simp at hmem
  | cons p rest ih =>
    simp only [List.map_cons, List.nodup_cons] at hnd
    rcases List.mem_cons.mp hmem with h | h
    · subst h
      simp [jsGet]
    · have hk : p.1 ≠ k := by
        intro he
        exact hnd.1 (he ▸ (List.mem_map.mpr ⟨(k, v), h, rfl⟩))
      simp [jsGet, hk, ih h hnd.2]

-- ## Data model of the story slice (store/storySlice.ts)

/-- The colorTreatment field of an image generation request. -/
inductive ColorTreatment
  | monochrome
  | selectiveColor
  | map
deriving DecidableEq, Repr

/-- A single image generation request in the queue (interface
ImageGenerationRequest of store/storySlice.ts). -/
structure ImageGenerationRequest where
  cardId : String
  prompt : String
  colorTreatment : ColorTreatment
deriving DecidableEq, Repr

/-- One element of the payload of the updateImageCache reducer:
the settled outcome of one generation request of a batch. -/
structure ImageResult where
  cardId : String
  url : Option String
  error : Bool
deriving DecidableEq, Repr

/-- The image-pipeline fields of the StoryState of store/storySlice.ts.
The other fields of the slice (entity adapters, thresholds, tokens) are not
touched by any of the pipeline reducers and are omitted. -/
structure StoryState where
  imageUrls : JsMap String
  imageErrors : JsMap Bool
  imageLoading : JsMap Bool
  imageGenerationQueue : List ImageGenerationRequest
  isQueueProcessing : Bool
deriving DecidableEq, Repr

/-- The image-pipeline part of the initial state of the slice. -/
def initialStoryState : StoryState :=
  { imageUrls := [], imageErrors := [], imageLoading := [],
    imageGenerationQueue := [], isQueueProcessing := false }

-- ## Reducers

/-- Reducer queueImageGeneration: enqueue a request unless its cardId already
has a truthy imageUrls entry or a truthy imageLoading flag; on enqueue, append
the request to the queue and set imageLoading for the cardId to true. -/
def queueImageGeneration (s : StoryState) (req : ImageGenerationRequest) : StoryState :=
  if !truthyOptStr (jsGet s.imageUrls req.cardId)
      && !truthyOptBool (jsGet s.imageLoading req.cardId) then
    { s with
      imageGenerationQueue := s.imageGenerationQueue ++ [req],
      imageLoading := jsSet s.imageLoading req.cardId true }
  else s

/-- Reducer setImageGenerationQueue: replace the queue. -/
def setImageGenerationQueue (s : StoryState) (q : List ImageGenerationRequest) : StoryState :=
  { s with imageGenerationQueue := q }

/-- Reducer setIsQueueProcessing: set the single-flight flag. -/
def setIsQueueProcessing (s : StoryState) (b : Bool) : StoryState :=
  { s with isQueueProcessing := b }

/-- One iteration of the forEach of the updateImageCache reducer: set
imageLoading for the cardId to false; on a truthy url, store it in imageUrls
and delete any imageErrors flag; otherwise set the imageErrors flag. -/
def applyImageResult (s : StoryState) (r : ImageResult) : StoryState :=
  let s1 := { s with imageLoading := jsSet s.imageLoading r.cardId false }
  match r.url with
  | some u =>
    if u = "" then
      { s1 with imageErrors := jsSet s1.imageErrors r.cardId true }
    else
      { s1 with
        imageUrls := jsSet s1.imageUrls r.cardId u,
        imageErrors := jsDelete s1.imageErrors r.cardId }
  | none => { s1 with imageErrors := jsSet s1.imageErrors r.cardId true }

/-- Reducer updateImageCache: apply every batch result in payload order. -/
def updateImageCache (s : StoryState) (results : List ImageResult) : StoryState :=
  results.foldl applyImageResult s

-- ## The batch processing thunk (processImageGenerationQueue)

/-- One run of the processImageGenerationQueue thunk, with the external calls
abstracted: `N` is API_CONFIG.CONCURRENT_REQUEST_LIMIT, `gen` gives the settled
outcome of generateImageAPI plus blob conversion and object-URL creation for a
request (some url on success, none on a null result or a thrown error), and
`mids` are the requests collaborators enqueue while the batch is awaited.
Returns the resulting state together with whether a follow-up run was scheduled
by the final setTimeout.  The thunk returns immediately when a run is already
in flight or the queue is empty; otherwise it snapshots the queue, keeps the
first `N` requests, stores the rest back, awaits all batch members, records the
results through updateImageCache, clears the single-flight flag and schedules a
follow-up run exactly when the snapshot remainder was non-empty. -/
def processImageGenerationQueue (N : Nat) (gen : ImageGenerationRequest → Option String)
    (mids : List ImageGenerationRequest) (s : StoryState) : StoryState × Bool :=
  if s.isQueueProcessing || s.imageGenerationQueue.isEmpty then (s, false)
  else
    let queue := s.imageGenerationQueue
    let requestsToProcess := queue.take N
    let remainingRequests := queue.drop N
    let s1 := setIsQueueProcessing s true
    let s2 := setImageGenerationQueue s1 remainingRequests
    let s3 := mids.foldl queueImageGeneration s2
    let results := requestsToProcess.map
      (fun r => ImageResult.mk r.cardId (gen r) (gen r).isNone)
    let s4 := updateImageCache s3 results
    let s5 := setIsQueueProcessing s4 false
    (s5, !remainingRequests.isEmpty)

/-- One dispatcher tick with no interleaved enqueues: the state after a run of
processImageGenerationQueue. -/
def tick (N : Nat) (gen : ImageGenerationRequest → Option String) (s : StoryState) : StoryState :=
  (processImageGenerationQueue N gen [] s).1

/-- The writes a run of processImageGenerationQueue issues to the persistent
store: dbService.saveImage is called exactly for the batch members whose
generateImageAPI call returned a non-null result. -/
def tickWrites (N : Nat) (gen : ImageGenerationRequest → Option String)
    (s : StoryState) : List (String × String) :=
  if s.isQueueProcessing || s.imageGenerationQueue.isEmpty then []
  else (s.imageGenerationQueue.take N).filterMap
    (fun r => (gen r).map (fun u => (r.cardId, u)))

-- ## Cache hydration (hydrateImageCache and its fulfilled reducer)

/-- A blob: raw binary data. -/
abbrev Blob := List Nat

/-- One entry returned by dbService.getAllImages: a persisted id and its blob
(the blob position can in principle be undefined, hence Option). -/
structure PersistedImage where
  id : String
  blob : Option Blob
deriving DecidableEq, Repr

/-- One iteration of the hydration loop of the hydrateImageCache thunk: add an
object URL for the persisted item unless the snapshot of imageUrls already has
a truthy entry for its id or the item has no blob. -/
def hydrateStep (existing : JsMap String) (mkUrl : Blob → String)
    (urls : JsMap String) (item : PersistedImage) : JsMap String :=
  match item.blob with
  | some b =>
    if truthyOptStr (jsGet existing item.id) then urls
    else jsSet urls item.id (mkUrl b)
  | none => urls

/-- The payload the hydrateImageCache thunk returns: the object URLs built for
the persisted images whose ids have no truthy entry in the imageUrls snapshot.
`mkUrl` abstracts URL.createObjectURL. -/
def hydratePayload (existing : JsMap String) (persisted : List PersistedImage)
    (mkUrl : Blob → String) : JsMap String :=
  persisted.foldl (hydrateStep existing mkUrl) []

/-- JavaScript object spread merge: the keys of `a`, with values overridden by
`b` where present, followed by the new keys of `b`. -/
def jsMerge {α : Type} (a b : JsMap α) : JsMap α :=
  b.foldl (fun m p => jsSet m p.1 p.2) a

/-- The extraReducers case for hydrateImageCache.fulfilled: spread-merge the
payload into imageUrls. -/
def hydrateFulfilled (s : StoryState) (payload : JsMap String) : StoryState :=
  { s with imageUrls := jsMerge s.imageUrls payload }

/-- A full run of the hydrateImageCache thunk followed by its fulfilled
reducer, with the persisted store contents and URL.createObjectURL abstracted. -/
def hydrateImageCache (persisted : List PersistedImage) (mkUrl : Blob → String)
    (s : StoryState) : StoryState :=
  hydrateFulfilled s (hydratePayload s.imageUrls persisted mkUrl)

-- ## The retrying image client (generateImage of services/geminiService.ts)

/-- The numeric value of retryInfo.retryDelay.seconds after Number conversion:
either NaN or a finite rational. -/
inductive RetryParse
  | nan
  | num (q : ℚ)
deriving DecidableEq

/-- The classification generateImage derives from a caught error: the three
string-sniffed retryable kinds, and the server-suggested retry delay when the
rate-limit error body parses to a RetryInfo detail (none when the detail is
absent or the JSON parse throws). -/
structure FailureInfo where
  rateLimited : Bool
  serviceUnavailable : Bool
  noImageData : Bool
  retryAfter : Option RetryParse
deriving DecidableEq

/-- The outcome of one ai.models.generateImages attempt as generateImage's
try block observes it: image data, or a caught and classified error. -/
inductive AttemptOutcome
  | success (mimeType : String) (bytes : String)
  | failure (f : FailureInfo)
deriving DecidableEq

/-- A failure is retried while attempts remain exactly when it is a rate
limit, a service-unavailable, or a no-image-data error. -/
def isRetryable (f : FailureInfo) : Bool :=
  f.rateLimited || f.serviceUnavailable || f.noImageData

/-- MAX_REASONABLE_DELAY_SEC of generateImage. -/
def MAX_REASONABLE_DELAY_SEC : ℚ := 300

/-- The delay generateImage sleeps before a retry: the current exponential
delay, overridden for a rate-limit failure carrying a parsed retry delay that
is not NaN, positive and below the sanity ceiling, in which case it is the
suggested seconds times 1000 plus the jitter draw (Math.random() * 500). -/
def computeRetryDelay (exponentialDelay : ℚ) (f : FailureInfo) (jitter : ℚ) : ℚ :=
  if f.rateLimited then
    match f.retryAfter with
    | some (RetryParse.num s) =>
      if 0 < s ∧ s < MAX_REASONABLE_DELAY_SEC then s * 1000 + jitter
      else exponentialDelay
    | _ => exponentialDelay
  else exponentialDelay

/-- maxRetries of generateImage. -/
def maxRetries : Nat := 3

/-- The result of a generateImage call: the returned image data (none models
the null returns), together with the sleeps performed, in order. -/
structure GenOutcome where
  result : Option (String × String)
  sleeps : List ℚ
deriving DecidableEq

/-- The retry loop of generateImage: `outcome k` is the settled outcome of the
k-th attempt, `jitter k` the Math.random() * 500 draw evaluated on the k-th
attempt.  On success return the image data; on a retryable failure with
attempts remaining sleep the computed delay, double the exponential delay and
retry; otherwise return null.  The fuel argument only bounds the recursion and
equals the number of attempts remaining. -/
def genAttempts (outcome : Nat → AttemptOutcome) (jitter : Nat → ℚ) :
    Nat → Nat → ℚ → List ℚ → GenOutcome
  | 0, _, _, acc => ⟨none, acc.reverse⟩
  | fuel + 1, attempt, exponentialDelay, acc =>
    match outcome attempt with
    | AttemptOutcome.success m b => ⟨some (m, b), acc.reverse⟩
    | AttemptOutcome.failure f =>
      if isRetryable f ∧ attempt < maxRetries then
        genAttempts outcome jitter fuel (attempt + 1) (exponentialDelay * 2)
          (computeRetryDelay exponentialDelay f (jitter attempt) :: acc)
      else ⟨none, acc.reverse⟩

/-- generateImage of services/geminiService.ts, over abstracted attempt
outcomes: when the client is not configured return null at once; otherwise run
up to maxRetries attempts starting from a 2000 ms exponential delay. -/
def generateImage (configured : Bool) (outcome : Nat → AttemptOutcome)
    (jitter : Nat → ℚ) : GenOutcome :=
  if configured then genAttempts outcome jitter maxRetries 1 2000 []
  else ⟨none, []⟩

-- ## The persistent cache (services/dbService.ts)

/-- STORE_NAME of services/dbService.ts. -/
def STORE_NAME : String := "images"

/-- The IndexedDB database as the service observes it: the object store names
present after the open/upgrade, and the contents of the image store. -/
structure Db where
  storeNames : List String
  images : JsMap Blob
deriving DecidableEq, Repr

/-- The environment a dbService call runs in: whether getDb yields a database
(none models a missing window or a rejected open), and whether the inner
IndexedDB operation itself throws. -/
structure DbEnv where
  db : Option Db
  opThrows : Bool
deriving DecidableEq, Repr

/-- getDb of services/dbService.ts: the awaited database, or a thrown error. -/
def getDb (env : DbEnv) : Except Unit Db :=
  match env.db with
  | none => Except.error ()
  | some d => Except.ok d

/-- The body of dbService.saveImage before its catch: get the database, no-op
when the object store is missing, otherwise put the blob (the updated database
models the write; none models no write). -/
def saveImageBody (env : DbEnv) (id : String) (b : Blob) : Except Unit (Option Db) :=
  match getDb env with
  | Except.error e => Except.error e
  | Except.ok db =>
    if STORE_NAME ∈ db.storeNames then
      if env.opThrows then Except.error ()
      else Except.ok (some { db with images := jsSet db.images id b })
    else Except.ok none

/-- dbService.saveImage: the body with every thrown error caught and logged,
leaving the store untouched. -/
def saveImage (env : DbEnv) (id : String) (b : Blob) : Option Db :=
  match saveImageBody env id b with
  | Except.ok r => r
  | Except.error _ => none

/-- The body of dbService.getImage before its catch. -/
def getImageBody (env : DbEnv) (id : String) : Except Unit (Option Blob) :=
  match getDb env with
  | Except.error e => Except.error e
  | Except.ok db =>
    if STORE_NAME ∈ db.storeNames then
      if env.opThrows then Except.error ()
      else Except.ok (jsGet db.images id)
    else Except.ok none

/-- dbService.getImage: the body with every thrown error caught, degrading to
undefined. -/
def getImage (env : DbEnv) (id : String) : Option Blob :=
  match getImageBody env id with
  | Except.ok r => r
  | Except.error _ => none

/-- The body of dbService.getAllImages before its catch: all keys paired with
all values of the image store. -/
def getAllImagesBody (env : DbEnv) : Except Unit (List PersistedImage) :=
  match getDb env with
  | Except.error e => Except.error e
  | Except.ok db =>
    if STORE_NAME ∈ db.storeNames then
      if env.opThrows then Except.error ()
      else Except.ok (db.images.map (fun p => PersistedImage.mk p.1 (some p.2)))
    else Except.ok []

/-- dbService.getAllImages: the body with every thrown error caught, degrading
to the empty list. -/
def getAllImages (env : DbEnv) : List PersistedImage :=
  match getAllImagesBody env with
  | Except.ok r => r
  | Except.error _ => []

/-- The body of dbService.clearImages before its catch (the updated database
models the clear; none models no change). -/
def clearImagesBody (env : DbEnv) : Except Unit (Option Db) :=
  match getDb env with
  | Except.error e => Except.error e
  | Except.ok db =>
    if STORE_NAME ∈ db.storeNames then
      if env.opThrows then Except.error ()
      else Except.ok (some { db with images := [] })
    else Except.ok none

/-- dbService.clearImages: the body with every thrown error caught and logged,
leaving the store untouched. -/
def clearImages (env : DbEnv) : Option Db :=
  match clearImagesBody env with
  | Except.ok r => r
  | Except.error _ => none

-- ## Reducer-level transitions and reachability of the pipeline state

/-- One pipeline state transition at the granularity of the slice reducers the
queue system dispatches: an enqueue, a queue replacement, a single-flight flag
write, or a batch-result record whose successful urls are object URLs and
hence non-empty. -/
inductive Step : StoryState → StoryState → Prop
  | enqueue (s : StoryState) (req : ImageGenerationRequest) :
      Step s (queueImageGeneration s req)
  | setQueue (s : StoryState) (q : List ImageGenerationRequest) :
      Step s (setImageGenerationQueue s q)
  | setProcessing (s : StoryState) (b : Bool) :
      Step s (setIsQueueProcessing s b)
  | update (s : StoryState) (results : List ImageResult)
      (h : ∀ r ∈ results, ∀ u, r.url = some u → u ≠ "") :
      Step s (updateImageCache s results)

/-- A pipeline state reachable from the initial state by reducer transitions. -/
def ReachableState (s : StoryState) : Prop :=
  Relation.ReflTransGen Step initialStoryState s

/-- The inductive invariant of the pipeline: every stored url is non-empty
(object URLs are never the empty string), and an id whose loading flag is true
has no imageUrls entry. -/
def PipelineInv (s : StoryState) : Prop :=
  (∀ id u, jsGet s.imageUrls id = some u → u ≠ "") ∧
  (∀ id, jsGet s.imageLoading id = some true → jsGet s.imageUrls id = none)

theorem pipelineInv_initial : PipelineInv initialStoryState := by
  constructor
  · intro id u h
    simp [initialStoryState] at h
  · intro id h
    simp [initialStoryState] at h

theorem pipelineInv_applyImageResult (s : StoryState) (r : ImageResult)
    (hurl : ∀ u, r.url = some u → u ≠ "") (hinv : PipelineInv s) :
    PipelineInv (applyImageResult s r) := by
  obtain ⟨hne, hld⟩ := hinv
  cases hu : r.url with
  | none =>
    constructor
    · intro id u h
      exact hne id u (by simpa [applyImageResult, hu] using h)
    · intro id h
      simp only [applyImageResult, hu] at h ⊢
      by_cases hid : r.cardId = id
      · subst hid
        simp at h
      · rw [jsGet_jsSet_other _ _ _ _ hid] at h
        exact hld id h
  | some u =>
    have hu' : u ≠ "" := hurl u hu
    constructor
    · intro id v h
      simp only [applyImageResult, hu, if_neg hu'] at h
      by_cases hid : r.cardId = id
      · subst hid
        rw [jsGet_jsSet_same] at h
        exact Option.some_injective _ h ▸ hu'
      · rw [jsGet_jsSet_other _ _ _ _ hid] at h
        exact hne id v h
    · intro id h
      simp only [applyImageResult, hu, if_neg hu'] at h ⊢
      by_cases hid : r.cardId = id
      · subst hid
        simp at h
      · rw [jsGet_jsSet_other _ _ _ _ hid] at h
        rw [jsGet_jsSet_other _ _ _ _ hid]
        exact hld id h

theorem pipelineInv_updateImageCache (s : StoryState) (results : List ImageResult)
    (h : ∀ r ∈ results, ∀ u, r.url = some u → u ≠ "") (hinv : PipelineInv s) :
    PipelineInv (updateImageCache s results) := by
  induction results generalizing s with
  | nil => exact hinv
  | cons r rest ih =>
    have h1 : ∀ u, r.url = some u → u ≠ "" := h r (List.mem_cons_self r rest)
    have h2 : ∀ r2 ∈ rest, ∀ u, r2.url = some u → u ≠ "" :=
      fun r2 hm => h r2 (List.mem_cons_of_mem r hm)
    exact ih (applyImageResult s r) h2 (pipelineInv_applyImageResult s r h1 hinv)

theorem pipelineInv_queueImageGeneration (s : StoryState) (req : ImageGenerationRequest)
    (hinv : PipelineInv s) : PipelineInv (queueImageGeneration s req) := by
  obtain ⟨hne, hld⟩ := hinv
  unfold queueImageGeneration
  by_cases hc : (!truthyOptStr (jsGet s.imageUrls req.cardId)
      && !truthyOptBool (jsGet s.imageLoading req.cardId)) = true
  · rw [if_pos hc]
    have hurl : jsGet s.imageUrls req.cardId = none := by
      rcases Bool.and_eq_true _ _ |>.mp hc with ⟨h1, _⟩
      cases hg : jsGet s.imageUrls req.cardId with
      | none => rfl
      | some u =>
        exfalso
        have := hne req.cardId u hg
        simp [hg, truthyOptStr, this] at h1
    constructor
    · intro id u h
      exact hne id u h
    · intro id h
      by_cases hid : req.cardId = id
      · subst hid
        exact hurl
      · simp only at h
        rw [jsGet_jsSet_other _ _ _ _ hid] at h
        exact hld id h
  · rw [if_neg hc]
    exact ⟨hne, hld⟩

theorem pipelineInv_step (s t : StoryState) (hst : Step s t) (hinv : PipelineInv s) :
    PipelineInv t := by
  cases hst with
  | enqueue req => exact pipelineInv_queueImageGeneration s req hinv
  | setQueue q => exact hinv
  | setProcessing b => exact hinv
  | update results h => exact pipelineInv_updateImageCache s results h hinv

theorem pipelineInv_reachable (s : StoryState) (h : ReachableState s) : PipelineInv s := by
  induction h with
  | refl => exact pipelineInv_initial
  | tail _ hst ih => exact pipelineInv_step _ _ hst ih

-- ## Field invariance lemmas

theorem updateImageCache_queue (s : StoryState) (results : List ImageResult) :
    (updateImageCache s results).imageGenerationQueue = s.imageGenerationQueue := by
  induction results generalizing s with
  | nil => rfl
  | cons r rest ih =>
    show (updateImageCache (applyImageResult s r) rest).imageGenerationQueue = _
    rw [ih]
    cases hu : r.url with
    | none => simp [applyImageResult, hu]
    | some u => by_cases h : u = "" <;> simp [applyImageResult, hu, h]

theorem updateImageCache_processing (s : StoryState) (results : List ImageResult) :
    (updateImageCache s results).isQueueProcessing = s.isQueueProcessing := by
  induction results generalizing s with
  | nil => rfl
  | cons r rest ih =>
    show (updateImageCache (applyImageResult s r) rest).isQueueProcessing = _
    rw [ih]
    cases hu : r.url with
    | none => simp [applyImageResult, hu]
    | some u => by_cases h : u = "" <;> simp [applyImageResult, hu, h]

-- ## Claim C2: the enqueue guard

/-- C2: for every state and request, queueImageGeneration is a no-op — all
state fields unchanged — when the cardId already has a (truthy) cached URL or
a (truthy) loading flag; otherwise it appends the request to the end of the
pending queue, sets its loading flag to true, and mutates nothing else. -/
theorem claim_C2_enqueue_guard (s : StoryState) (req : ImageGenerationRequest) :
    ((truthyOptStr (jsGet s.imageUrls req.cardId) = true ∨
        truthyOptBool (jsGet s.imageLoading req.cardId) = true) →
      queueImageGeneration s req = s) ∧
    (truthyOptStr (jsGet s.imageUrls req.cardId) = false →
      truthyOptBool (jsGet s.imageLoading req.cardId) = false →
      queueImageGeneration s req =
        { s with
          imageGenerationQueue := s.imageGenerationQueue ++ [req],
          imageLoading := jsSet s.imageLoading req.cardId true }) := by
  constructor
  · intro h
    unfold queueImageGeneration
    rcases h with h | h <;> simp [h]
  · intro h1 h2
    unfold queueImageGeneration
    simp [h1, h2]

/-- Witness for C2: a fresh id is appended and marked loading; an id already
marked loading is rejected with the state unchanged. -/
theorem claim_C2_witness :
    queueImageGeneration initialStoryState ⟨"a", "p", ColorTreatment.monochrome⟩ =
      { initialStoryState with
        imageGenerationQueue := [⟨"a", "p", ColorTreatment.monochrome⟩],
        imageLoading := [("a", true)] } ∧
    queueImageGeneration ⟨[], [], [("a", true)], [], false⟩ ⟨"a", "p", ColorTreatment.monochrome⟩ =
      ⟨[], [], [("a", true)], [], false⟩ :=
  ⟨(claim_C2_enqueue_guard initialStoryState ⟨"a", "p", ColorTreatment.monochrome⟩).2
      (by decide) (by decide),
   (claim_C2_enqueue_guard ⟨[], [], [("a", true)], [], false⟩
      ⟨"a", "p", ColorTreatment.monochrome⟩).1 (Or.inr (by decide))⟩

-- ## Claim C10: recording batch results

/-- C10: applying a batch result always sets the loading flag of its id to
false; a successful (truthy-url) result stores the url and deletes any
pre-existing error flag, so a previously errored id reads as cached and not
errored afterward; a failed result sets the error flag and leaves imageUrls
unchanged. -/
theorem claim_C10_updateImageCache (s : StoryState) (r : ImageResult)
    (id u : String) (hu : u ≠ "") :
    jsGet (applyImageResult s r).imageLoading r.cardId = some false ∧
    (jsGet (updateImageCache s [⟨id, some u, false⟩]).imageLoading id = some false ∧
     jsGet (updateImageCache s [⟨id, some u, false⟩]).imageUrls id = some u ∧
     jsGet (updateImageCache s [⟨id, some u, false⟩]).imageErrors id = none) ∧
    (jsGet (updateImageCache s [⟨id, none, true⟩]).imageLoading id = some false ∧
     jsGet (updateImageCache s [⟨id, none, true⟩]).imageErrors id = some true ∧
     (updateImageCache s [⟨id, none, true⟩]).imageUrls = s.imageUrls) := by
  refine ⟨?_, ⟨?_, ?_, ?_⟩, ⟨?_, ?_, ?_⟩⟩
  · cases hru : r.url with
    | none => simp [applyImageResult, hru]
    | some v => by_cases h : v = "" <;> simp [applyImageResult, hru, h]
  · simp [updateImageCache, applyImageResult, hu]
  · simp [updateImageCache, applyImageResult, hu]
  · simp [updateImageCache, applyImageResult, hu]
  · simp [updateImageCache, applyImageResult]
  · simp [updateImageCache, applyImageResult]
  · simp [updateImageCache, applyImageResult]

/-- Witness for C10: on a state where id a previously errored and is loading,
a successful result for a reads as cached and not errored, and a failed
result for a reads as errored with no cached entry. -/
theorem claim_C10_witness :
    jsGet (updateImageCache ⟨[], [("a", true)], [("a", true)], [], true⟩
        [⟨"a", some "blob:a", false⟩]).imageUrls "a" = some "blob:a" ∧
    jsGet (updateImageCache ⟨[], [("a", true)], [("a", true)], [], true⟩
        [⟨"a", some "blob:a", false⟩]).imageErrors "a" = none ∧
    jsGet (updateImageCache ⟨[], [("a", true)], [("a", true)], [], true⟩
        [⟨"a", none, true⟩]).imageErrors "a" = some true :=
  have h := claim_C10_updateImageCache ⟨[], [("a", true)], [("a", true)], [], true⟩
    ⟨"a", none, true⟩ "a" "blob:a" (by decide)
  ⟨h.2.1.2.1, h.2.1.2.2, h.2.2.2.1⟩

-- ## Claim C9: the persistent cache never throws

/-- C9: no dbService operation propagates an error to its caller: each body
error is caught and each operation degrades — to a no-op for saveImage and
clearImages, to undefined for getImage and to the empty list for getAllImages
— whenever the database is unavailable, the images object store is missing,
or the inner IndexedDB operation throws. -/
theorem claim_C9_dbService_degrades (env : DbEnv) (id : String) (b : Blob)
    (hdeg : env.db = none ∨
      (∃ d, env.db = some d ∧ STORE_NAME ∉ d.storeNames) ∨ env.opThrows = true) :
    (saveImage env id b = none ∧ getImage env id = none ∧
     getAllImages env = [] ∧ clearImages env = none) ∧
    (∀ e, saveImageBody env id b = Except.error e → saveImage env id b = none) ∧
    (∀ e, getImageBody env id = Except.error e → getImage env id = none) ∧
    (∀ e, getAllImagesBody env = Except.error e → getAllImages env = []) ∧
    (∀ e, clearImagesBody env = Except.error e → clearImages env = none) := by
  refine ⟨?_, ?_, ?_, ?_, ?_⟩
  · rcases hdeg with h | ⟨d, hd, hs⟩ | h
    · simp [saveImage, saveImageBody, getImage, getImageBody,
        getAllImages, getAllImagesBody, clearImages, clearImagesBody, getDb, h]
    · simp [saveImage, saveImageBody, getImage, getImageBody,
        getAllImages, getAllImagesBody, clearImages, clearImagesBody, getDb, hd, hs]
    · rcases hdb : env.db with _ | d
      · simp [saveImage, saveImageBody, getImage, getImageBody,
          getAllImages, getAllImagesBody, clearImages, clearImagesBody, getDb, hdb]
      · by_cases hs : STORE_NAME ∈ d.storeNames <;>
          simp [saveImage, saveImageBody, getImage, getImageBody,
            getAllImages, getAllImagesBody, clearImages, clearImagesBody, getDb, hdb, hs, h]
  · intro e he
    simp [saveImage, he]
  · intro e he
    simp [getImage, he]
  · intro e he
    simp [getAllImages, he]
  · intro e he
    simp [clearImages, he]

/-- Witness for C9: a database whose images store is missing degrades every
operation. -/
theorem claim_C9_witness :
    saveImage ⟨some ⟨["other"], []⟩, false⟩ "a" [1] = none ∧
    getImage ⟨some ⟨["other"], []⟩, false⟩ "a" = none ∧
    getAllImages ⟨some ⟨["other"], []⟩, false⟩ = [] ∧
    clearImages ⟨some ⟨["other"], []⟩, false⟩ = none :=
  (claim_C9_dbService_degrades ⟨some ⟨["other"], []⟩, false⟩ "a" [1]
    (Or.inr (Or.inl ⟨⟨["other"], []⟩, rfl, by decide⟩))).1

-- ## Retry loop lemmas

/-- Whether a classified failure makes generateImage use the server-suggested
delay instead of the exponential one. -/
def usesServerDelay (f : FailureInfo) : Bool :=
  f.rateLimited &&
    (match f.retryAfter with
     | some (RetryParse.num s) => decide (0 < s ∧ s < MAX_REASONABLE_DELAY_SEC)
     | _ => false)

theorem computeRetryDelay_of_not_server (exponentialDelay : ℚ) (f : FailureInfo)
    (jitter : ℚ) (h : usesServerDelay f = false) :
    computeRetryDelay exponentialDelay f jitter = exponentialDelay := by
  unfold usesServerDelay at h
  unfold computeRetryDelay
  cases hrl : f.rateLimited with
  | false => simp [hrl]
  | true =>
    rw [hrl] at h
    simp only [Bool.true_and] at h
    cases hra : f.retryAfter with
    | none => simp [hrl, hra]
    | some rp =>
      cases rp with
      | nan => simp [hrl, hra]
      | num s =>
        rw [hra] at h
        simp only [decide_eq_false_iff_not] at h
        simp [hrl, hra, h]

theorem genAttempts_retry_step (o : Nat → AttemptOutcome) (j : Nat → ℚ)
    (fuel attempt : Nat) (ed : ℚ) (acc : List ℚ) (f : FailureInfo)
    (ho : o attempt = AttemptOutcome.failure f)
    (hr : isRetryable f = true) (hlt : attempt < maxRetries) :
    genAttempts o j (fuel + 1) attempt ed acc =
      genAttempts o j fuel (attempt + 1) (ed * 2)
        (computeRetryDelay ed f (j attempt) :: acc) := by
  simp [genAttempts, ho, hr, hlt]

theorem genAttempts_stop_step (o : Nat → AttemptOutcome) (j : Nat → ℚ)
    (fuel attempt : Nat) (ed : ℚ) (acc : List ℚ) (f : FailureInfo)
    (ho : o attempt = AttemptOutcome.failure f)
    (hc : ¬(isRetryable f = true ∧ attempt < maxRetries)) :
    genAttempts o j (fuel + 1) attempt ed acc = ⟨none, acc.reverse⟩ := by
  simp only [genAttempts, ho]
  rw [if_neg hc]

theorem genAttempts_sleeps_append (o : Nat → AttemptOutcome) (j : Nat → ℚ) :
    ∀ (fuel attempt : Nat) (ed : ℚ) (acc : List ℚ),
      (genAttempts o j fuel attempt ed acc).sleeps
        = acc.reverse ++ (genAttempts o j fuel attempt ed []).sleeps := by
  intro fuel
  induction fuel with
  | zero =>
    intro attempt ed acc
    simp [genAttempts]
  | succ n ih =>
    intro attempt ed acc
    cases ho : o attempt with
    | success m b => simp [genAttempts, ho]
    | failure f =>
      by_cases hc : isRetryable f = true ∧ attempt < maxRetries
      · rw [genAttempts_retry_step o j n attempt ed acc f ho hc.1 hc.2,
           genAttempts_retry_step o j n attempt ed [] f ho hc.1 hc.2,
           ih (attempt + 1) (ed * 2) (computeRetryDelay ed f (j attempt) :: acc),
           ih (attempt + 1) (ed * 2) [computeRetryDelay ed f (j attempt)]]
        simp
      · rw [genAttempts_stop_step o j n attempt ed acc f ho hc,
           genAttempts_stop_step o j n attempt ed [] f ho hc]
        simp

theorem genAttempts_attempt_three_sleeps (o : Nat → AttemptOutcome) (j : Nat → ℚ)
    (ed : ℚ) (acc : List ℚ) :
    (genAttempts o j 1 3 ed acc).sleeps = acc.reverse := by
  cases ho : o 3 with
  | success m b => simp [genAttempts, ho]
  | failure f =>
    rw [genAttempts_stop_step o j 0 3 ed acc f ho (by simp [maxRetries])]

-- ## Claim C5: exponential backoff doubling

/-- C5: when no server-supplied retry-after is used, the sleep before the
k-th retry (k = 1, 2) equals 2000 * 2 ^ (k - 1) milliseconds, so successive
backoff delays strictly increase and stay below the 300-second ceiling. -/
theorem claim_C5_exponential_backoff (outcome : Nat → AttemptOutcome) (jitter : Nat → ℚ)
    (f1 f2 : FailureInfo)
    (h1 : outcome 1 = AttemptOutcome.failure f1)
    (h2 : outcome 2 = AttemptOutcome.failure f2)
    (hr1 : isRetryable f1 = true) (hr2 : isRetryable f2 = true)
    (hs1 : usesServerDelay f1 = false) (hs2 : usesServerDelay f2 = false) :
    (generateImage true outcome jitter).sleeps = [2000 * 2 ^ 0, 2000 * 2 ^ 1] ∧
    List.Chain' (· < ·) (generateImage true outcome jitter).sleeps ∧
    (∀ d ∈ (generateImage true outcome jitter).sleeps, d < 300 * 1000) := by
  have key : (generateImage true outcome jitter).sleeps = [2000, 2000 * 2] := by
    show (genAttempts outcome jitter 3 1 2000 []).sleeps = [2000, 2000 * 2]
    rw [genAttempts_retry_step outcome jitter 2 1 2000 [] f1 h1 hr1 (by simp [maxRetries]),
       computeRetryDelay_of_not_server 2000 f1 (jitter 1) hs1,
       genAttempts_retry_step outcome jitter 1 2 (2000 * 2) [2000] f2 h2 hr2
         (by simp [maxRetries]),
       computeRetryDelay_of_not_server (2000 * 2) f2 (jitter 2) hs2,
       genAttempts_attempt_three_sleeps]
    simp
  refine ⟨?_, ?_, ?_⟩
  · rw [key]
    norm_num
  · rw [key]
    refine List.chain'_cons.mpr ⟨by norm_num, ?_⟩
    simp
  · rw [key]
    intro d hd
    simp only [List.mem_cons, List.not_mem_nil, or_false] at hd
    rcases hd with h | h <;> subst h <;> norm_num

/-- Witness for C5: three service-unavailable outcomes produce exactly the
sleeps 2000 and 4000 milliseconds. -/
theorem claim_C5_witness :
    (generateImage true (fun _ => AttemptOutcome.failure ⟨false, true, false, none⟩)
        (fun _ => 0)).sleeps = [2000 * 2 ^ 0, 2000 * 2 ^ 1] :=
  (claim_C5_exponential_backoff
    (fun _ => AttemptOutcome.failure ⟨false, true, false, none⟩) (fun _ => 0)
    ⟨false, true, false, none⟩ ⟨false, true, false, none⟩
    rfl rfl rfl rfl rfl rfl).1

-- ## Claim C6: server-suggested retry delay

/-- C6: when a rate-limited failure carries a parsed retryAfterSeconds
strictly between 0 and 300, the first retry delay is retryAfterSeconds * 1000
plus the jitter draw; when the value is absent, non-numeric, non-positive, or
at least 300, the exponential value 2000 is used. -/
theorem claim_C6_server_delay (outcome : Nat → AttemptOutcome) (jitter : Nat → ℚ)
    (f : FailureInfo)
    (h1 : outcome 1 = AttemptOutcome.failure f) (hrl : f.rateLimited = true) :
    (∀ s : ℚ, f.retryAfter = some (RetryParse.num s) → 0 < s → s < 300 →
      (generateImage true outcome jitter).sleeps.head? = some (s * 1000 + jitter 1)) ∧
    ((f.retryAfter = none ∨ f.retryAfter = some RetryParse.nan ∨
        (∃ s : ℚ, f.retryAfter = some (RetryParse.num s) ∧ (s ≤ 0 ∨ 300 ≤ s))) →
      (generateImage true outcome jitter).sleeps.head? = some (2000 : ℚ)) := by
  have hr : isRetryable f = true := by
    simp [isRetryable, hrl]
  have hstep : (generateImage true outcome jitter).sleeps
      = computeRetryDelay 2000 f (jitter 1)
          :: (genAttempts outcome jitter 2 2 (2000 * 2) []).sleeps := by
    show (genAttempts outcome jitter 3 1 2000 []).sleeps = _
    rw [genAttempts_retry_step outcome jitter 2 1 2000 [] f h1 hr (by simp [maxRetries]),
       genAttempts_sleeps_append]
    simp
  constructor
  · intro s hra hpos hlt
    rw [hstep]
    simp only [List.head?_cons, Option.some_inj]
    unfold computeRetryDelay
    rw [if_pos hrl, hra]
    simp only
    rw [if_pos ⟨hpos, by simpa [MAX_REASONABLE_DELAY_SEC] using hlt⟩]
  · intro hcase
    rw [hstep]
    simp only [List.head?_cons, Option.some_inj]
    unfold computeRetryDelay
    rw [if_pos hrl]
    rcases hcase with h | h | ⟨s, hs, hout⟩
    · rw [h]
    · rw [h]
    · rw [hs]
      simp only
      rw [if_neg ?_]
      rintro ⟨hp, hl⟩
      rcases hout with h | h
      · exact absurd hp (not_lt.mpr h)
      · exact absurd hl (not_lt.mpr (by simpa [MAX_REASONABLE_DELAY_SEC] using h))

/-- Witness for C6: a suggested delay of 10 seconds with jitter 250 gives a
first sleep of 10 * 1000 + 250 ms; a suggested delay of 500 seconds is
rejected by the sanity ceiling and the exponential 2000 ms is used. -/
theorem claim_C6_witness :
    (generateImage true
        (fun _ => AttemptOutcome.failure ⟨true, false, false, some (RetryParse.num 10)⟩)
        (fun _ => 250)).sleeps.head? = some ((10 : ℚ) * 1000 + 250) ∧
    (generateImage true
        (fun _ => AttemptOutcome.failure ⟨true, false, false, some (RetryParse.num 500)⟩)
        (fun _ => 250)).sleeps.head? = some ((2000 : ℚ)) :=
  ⟨(claim_C6_server_delay
      (fun _ => AttemptOutcome.failure ⟨true, false, false, some (RetryParse.num 10)⟩)
      (fun _ => 250) ⟨true, false, false, some (RetryParse.num 10)⟩ rfl rfl).1
      10 rfl (by decide) (by decide),
   (claim_C6_server_delay
      (fun _ => AttemptOutcome.failure ⟨true, false, false, some (RetryParse.num 500)⟩)
      (fun _ => 250) ⟨true, false, false, some (RetryParse.num 500)⟩ rfl rfl).2
      (Or.inr (Or.inr ⟨500, rfl, Or.inr (by decide)⟩))⟩

-- ## Claim C1: the loading invariant

/-- The state reached by enqueueing id a, draining the queue, recording a
failed batch result for a, and enqueueing a again. -/
def c1ReenqueuedState : StoryState :=
  queueImageGeneration
    (updateImageCache
      (setImageGenerationQueue
        (queueImageGeneration initialStoryState ⟨"a", "p", ColorTreatment.monochrome⟩) [])
      [⟨"a", none, true⟩])
    ⟨"a", "p", ColorTreatment.monochrome⟩

/-- Counterexample to C1: after an id errors and is re-enqueued, the reachable
state has the id both loading and errored, because queueImageGeneration does
not consult or clear imageErrors. -/
theorem claim_C1_counterexample :
    ReachableState c1ReenqueuedState ∧
    jsGet c1ReenqueuedState.imageLoading "a" = some true ∧
    jsGet c1ReenqueuedState.imageErrors "a" = some true := by
  refine ⟨?_, by decide, by decide⟩
  have hupd : ∀ r ∈ [ImageResult.mk "a" none true], ∀ u, r.url = some u → u ≠ "" := by
    intro r hr u hu
    simp only [List.mem_singleton] at hr
    subst hr
    simp at hu
  exact Relation.ReflTransGen.tail
    (Relation.ReflTransGen.tail
      (Relation.ReflTransGen.tail
        (Relation.ReflTransGen.single
          (Step.enqueue initialStoryState ⟨"a", "p", ColorTreatment.monochrome⟩))
        (Step.setQueue _ []))
      (Step.update _ [⟨"a", none, true⟩] hupd))
    (Step.enqueue _ ⟨"a", "p", ColorTreatment.monochrome⟩)

/-- C1 (amended): in every state reachable from the initial state through the
pipeline reducers, an id whose loading flag is true has no imageUrls entry.
The errored half of the claim is false: re-enqueueing a previously errored id
leaves its error flag set while the id is loading. -/
theorem claim_C1_loading_not_cached (s : StoryState) (id : String)
    (h : ReachableState s) (hl : jsGet s.imageLoading id = some true) :
    jsGet s.imageUrls id = none :=
  (pipelineInv_reachable s h).2 id hl

/-- Witness for C1: after one enqueue from the initial state, id a is loading
and has no cached entry. -/
theorem claim_C1_witness :
    jsGet (queueImageGeneration initialStoryState
        ⟨"a", "p", ColorTreatment.monochrome⟩).imageLoading "a" = some true ∧
    jsGet (queueImageGeneration initialStoryState
        ⟨"a", "p", ColorTreatment.monochrome⟩).imageUrls "a" = none :=
  ⟨by decide,
   claim_C1_loading_not_cached
     (queueImageGeneration initialStoryState ⟨"a", "p", ColorTreatment.monochrome⟩) "a"
     (Relation.ReflTransGen.single
       (Step.enqueue initialStoryState ⟨"a", "p", ColorTreatment.monochrome⟩))
     (by decide)⟩

-- ## Claim C7: rescheduling after a batch

/-- Counterexample to C7: with limit 2, a single queued request, and one
request enqueued while the batch runs, the tick finishes with a non-empty
pending queue but schedules no follow-up tick, because the setTimeout guard
tests the snapshot remainder, not the live queue. -/
theorem claim_C7_counterexample :
    (processImageGenerationQueue 2 (fun _ => none)
        [⟨"b", "q", ColorTreatment.monochrome⟩]
        (queueImageGeneration initialStoryState
          ⟨"a", "p", ColorTreatment.monochrome⟩)).2 = false ∧
    (processImageGenerationQueue 2 (fun _ => none)
        [⟨"b", "q", ColorTreatment.monochrome⟩]
        (queueImageGeneration initialStoryState
          ⟨"a", "p", ColorTreatment.monochrome⟩)).1.imageGenerationQueue ≠ [] := by
  constructor
  · decide
  · decide

/-- C7 (amended): a follow-up tick is scheduled exactly when the snapshot
remainder — the queue at tick start beyond the first N requests — is
non-empty; requests enqueued while the batch executes do not trigger a
reschedule.  With no interleaved enqueues the snapshot remainder is the final
pending queue, so the scheduled flag then agrees with the claim. -/
theorem claim_C7_reschedule_snapshot (N : Nat)
    (gen : ImageGenerationRequest → Option String)
    (mids : List ImageGenerationRequest) (s : StoryState)
    (hp : s.isQueueProcessing = false) (hq : s.imageGenerationQueue ≠ []) :
    (processImageGenerationQueue N gen mids s).2
        = !(s.imageGenerationQueue.drop N).isEmpty ∧
    (mids = [] →
      ((processImageGenerationQueue N gen mids s).2 = true ↔
        (processImageGenerationQueue N gen mids s).1.imageGenerationQueue ≠ [])) := by
  have hguard : (s.isQueueProcessing || s.imageGenerationQueue.isEmpty) = false := by
    simp [hp, hq]
  constructor
  · unfold processImageGenerationQueue
    rw [hguard]
    simp
  · intro hm
    subst hm
    unfold processImageGenerationQueue
    rw [hguard]
    simp only [Bool.false_eq_true, if_false, List.foldl_nil]
    constructor
    · intro hsched
      rw [show (setIsQueueProcessing
            (updateImageCache
              (setImageGenerationQueue (setIsQueueProcessing s true)
                (s.imageGenerationQueue.drop N)) _)
            false).imageGenerationQueue
          = (updateImageCache
              (setImageGenerationQueue (setIsQueueProcessing s true)
                (s.imageGenerationQueue.drop N)) _).imageGenerationQueue from rfl,
        updateImageCache_queue]
      simp only [setImageGenerationQueue]
      simpa using hsched
    · intro hne
      rw [show (setIsQueueProcessing
            (updateImageCache
              (setImageGenerationQueue (setIsQueueProcessing s true)
                (s.imageGenerationQueue.drop N)) _)
            false).imageGenerationQueue
          = (updateImageCache
              (setImageGenerationQueue (setIsQueueProcessing s true)
                (s.imageGenerationQueue.drop N)) _).imageGenerationQueue from rfl,
        updateImageCache_queue] at hne
      simp only [setImageGenerationQueue] at hne
      simpa using hne

/-- Witness for C7: with limit 2 and three queued requests the snapshot
remainder is non-empty and a follow-up tick is scheduled. -/
theorem claim_C7_witness :
    (processImageGenerationQueue 2 (fun _ => none) []
      ⟨[], [], [("a", true), ("b", true), ("c", true)],
        [⟨"a", "p", ColorTreatment.monochrome⟩, ⟨"b", "p", ColorTreatment.monochrome⟩,
         ⟨"c", "p", ColorTreatment.monochrome⟩], false⟩).2 = true := by
  have h := (claim_C7_reschedule_snapshot 2 (fun _ => none) []
    ⟨[], [], [("a", true), ("b", true), ("c", true)],
      [⟨"a", "p", ColorTreatment.monochrome⟩, ⟨"b", "p", ColorTreatment.monochrome⟩,
       ⟨"c", "p", ColorTreatment.monochrome⟩], false⟩ (by decide) (by decide)).1
  rw [h]
  decide

-- ## Claim C4: exhausted retries, errored terminal state, re-enqueue accepted

/-- Whether an attempt outcome is a success. -/
def AttemptOutcome.isSuccess : AttemptOutcome → Bool
  | AttemptOutcome.success _ _ => true
  | AttemptOutcome.failure _ => false

theorem genAttempts_none_of_failures (o : Nat → AttemptOutcome) (j : Nat → ℚ) :
    ∀ (fuel attempt : Nat) (ed : ℚ) (acc : List ℚ),
      (∀ k, attempt ≤ k → k < attempt + fuel → (o k).isSuccess = false) →
      (genAttempts o j fuel attempt ed acc).result = none := by
  intro fuel
  induction fuel with
  | zero =>
    intro attempt ed acc _
    simp [genAttempts]
  | succ n ih =>
    intro attempt ed acc hf
    cases ho : o attempt with
    | success m b =>
      have hk := hf attempt le_rfl (by omega)
      rw [ho] at hk
      simp [AttemptOutcome.isSuccess] at hk
    | failure f =>
      by_cases hc : isRetryable f = true ∧ attempt < maxRetries
      · rw [genAttempts_retry_step o j n attempt ed acc f ho hc.1 hc.2]
        exact ih (attempt + 1) (ed * 2) _ (fun k hk1 hk2 => hf k (by omega) (by omega))
      · rw [genAttempts_stop_step o j n attempt ed acc f ho hc]

/-- C4: when all three generation attempts fail, generateImage returns null;
processing such a request marks its id errored and not loading, leaves
imageUrls without an entry for it, issues no persistent write for it, and a
subsequent enqueue of the same id is accepted — appended to the queue and
marked loading — because the enqueue guard does not consult imageErrors. -/
theorem claim_C4_exhausted_retries (outcome : Nat → AttemptOutcome) (jitter : Nat → ℚ)
    (N : Nat) (gen : ImageGenerationRequest → Option String)
    (req : ImageGenerationRequest) (s : StoryState)
    (hfail : ∀ k, 1 ≤ k → k ≤ 3 → (outcome k).isSuccess = false)
    (hgen : gen req = none)
    (hN : 0 < N)
    (hproc : s.isQueueProcessing = false)
    (hqueue : s.imageGenerationQueue = [req])
    (hurl : jsGet s.imageUrls req.cardId = none) :
    (generateImage true outcome jitter).result = none ∧
    jsGet (tick N gen s).imageErrors req.cardId = some true ∧
    jsGet (tick N gen s).imageLoading req.cardId = some false ∧
    jsGet (tick N gen s).imageUrls req.cardId = none ∧
    (∀ p ∈ tickWrites N gen s, p.1 ≠ req.cardId) ∧
    (queueImageGeneration (tick N gen s) req).imageGenerationQueue
      = (tick N gen s).imageGenerationQueue ++ [req] ∧
    jsGet (queueImageGeneration (tick N gen s) req).imageLoading req.cardId = some true := by
  have htake : s.imageGenerationQueue.take N = [req] := by
    rw [hqueue]
    cases N with
    | zero => omega
    | succ n => simp
  have hdrop : s.imageGenerationQueue.drop N = [] := by
    rw [hqueue]
    cases N with
    | zero => omega
    | succ n => simp
  have hguard : (s.isQueueProcessing || s.imageGenerationQueue.isEmpty) = false := by
    simp [hproc, hqueue]
  have htick : tick N gen s =
      setIsQueueProcessing
        (updateImageCache
          (setImageGenerationQueue (setIsQueueProcessing s true) [])
          [⟨req.cardId, none, true⟩]) false := by
    unfold tick processImageGenerationQueue
    rw [hguard]
    simp only [Bool.false_eq_true, if_false, List.foldl_nil]
    rw [htake, hdrop]
    simp [hgen]
  have hexp : tick N gen s =
      { imageUrls := s.imageUrls,
        imageErrors := jsSet s.imageErrors req.cardId true,
        imageLoading := jsSet s.imageLoading req.cardId false,
        imageGenerationQueue := [],
        isQueueProcessing := false } := by
    rw [htick]
    simp [setIsQueueProcessing, setImageGenerationQueue, updateImageCache, applyImageResult]
  refine ⟨?_, ?_, ?_, ?_, ?_, ?_, ?_⟩
  · show (genAttempts outcome jitter 3 1 2000 []).result = none
    exact genAttempts_none_of_failures outcome jitter 3 1 2000 []
      (fun k hk1 hk2 => hfail k hk1 (by omega))
  · rw [hexp]
    simp
  · rw [hexp]
    simp
  · rw [hexp]
    exact hurl
  · unfold tickWrites
    rw [hguard]
    simp only [Bool.false_eq_true, if_false]
    rw [htake]
    simp [hgen]
  · have hcond : (!truthyOptStr (jsGet (tick N gen s).imageUrls req.cardId)
        && !truthyOptBool (jsGet (tick N gen s).imageLoading req.cardId)) = true := by
      rw [hexp]
      simp [truthyOptStr, truthyOptBool, hurl]
    unfold queueImageGeneration
    rw [hcond]
    simp
  · have hcond : (!truthyOptStr (jsGet (tick N gen s).imageUrls req.cardId)
        && !truthyOptBool (jsGet (tick N gen s).imageLoading req.cardId)) = true := by
      rw [hexp]
      simp [truthyOptStr, truthyOptBool, hurl]
    unfold queueImageGeneration
    rw [hcond]
    simp

/-- Witness for C4: three service-unavailable attempts for id a leave it
errored with no write, and a new enqueue of a is accepted. -/
theorem claim_C4_witness :
    (generateImage true (fun _ => AttemptOutcome.failure ⟨false, true, false, none⟩)
        (fun _ => 0)).result = none ∧
    jsGet (tick 1 (fun _ => none)
        (queueImageGeneration initialStoryState
          ⟨"a", "p", ColorTreatment.monochrome⟩)).imageErrors "a" = some true ∧
    jsGet (queueImageGeneration
        (tick 1 (fun _ => none)
          (queueImageGeneration initialStoryState ⟨"a", "p", ColorTreatment.monochrome⟩))
        ⟨"a", "p", ColorTreatment.monochrome⟩).imageLoading "a" = some true := by
  have h := claim_C4_exhausted_retries
    (fun _ => AttemptOutcome.failure ⟨false, true, false, none⟩) (fun _ => 0)
    1 (fun _ => none) ⟨"a", "p", ColorTreatment.monochrome⟩
    (queueImageGeneration initialStoryState ⟨"a", "p", ColorTreatment.monochrome⟩)
    (fun _ _ _ => rfl) rfl (by decide) (by decide) (by decide) (by decide)
  exact ⟨h.1, h.2.1, h.2.2.2.2.2.2⟩

-- ## Claim C3: FIFO batches and complete recording

/-- A batch result for this id has been recorded: the id is no longer loading
and reads as cached (truthy url) or errored. -/
def resultRecorded (t : StoryState) (id : String) : Prop :=
  jsGet t.imageLoading id = some false ∧
  (truthyOptStr (jsGet t.imageUrls id) = true ∨ jsGet t.imageErrors id = some true)

instance (t : StoryState) (id : String) : Decidable (resultRecorded t id) := by
  unfold resultRecorded
  infer_instance

theorem resultRecorded_applyImageResult_self (t : StoryState) (r : ImageResult) :
    resultRecorded (applyImageResult t r) r.cardId := by
  cases hu : r.url with
  | none => exact ⟨by simp [applyImageResult, hu], Or.inr (by simp [applyImageResult, hu])⟩
  | some u =>
    by_cases h : u = ""
    · exact ⟨by simp [applyImageResult, hu, h], Or.inr (by simp [applyImageResult, hu, h])⟩
    · exact ⟨by simp [applyImageResult, hu, h],
        Or.inl (by simp [applyImageResult, hu, h, truthyOptStr])⟩

theorem resultRecorded_applyImageResult_mono (t : StoryState) (r : ImageResult)
    (id : String) (h : resultRecorded t id) : resultRecorded (applyImageResult t r) id := by
  by_cases hid : r.cardId = id
  · subst hid
    exact resultRecorded_applyImageResult_self t r
  · obtain ⟨h1, h2⟩ := h
    cases hu : r.url with
    | none =>
      refine ⟨?_, ?_⟩
      · simpa [applyImageResult, hu, jsGet_jsSet_other _ _ _ _ hid] using h1
      · rcases h2 with h2 | h2
        · exact Or.inl (by simpa [applyImageResult, hu] using h2)
        · exact Or.inr (by simpa [applyImageResult, hu, jsGet_jsSet_other _ _ _ _ hid] using h2)
    | some u =>
      by_cases he : u = ""
      · refine ⟨?_, ?_⟩
        · simpa [applyImageResult, hu, he, jsGet_jsSet_other _ _ _ _ hid] using h1
        · rcases h2 with h2 | h2
          · exact Or.inl (by simpa [applyImageResult, hu, he] using h2)
          · exact Or.inr
              (by simpa [applyImageResult, hu, he, jsGet_jsSet_other _ _ _ _ hid] using h2)
      · refine ⟨?_, ?_⟩
        · simpa [applyImageResult, hu, he, jsGet_jsSet_other _ _ _ _ hid] using h1
        · rcases h2 with h2 | h2
          · exact Or.inl
              (by simpa [applyImageResult, hu, he, jsGet_jsSet_other _ _ _ _ hid] using h2)
          · exact Or.inr
              (by simpa [applyImageResult, hu, he, jsGet_jsDelete_other _ _ _ hid] using h2)

theorem resultRecorded_updateImageCache_mono (t : StoryState) (rs : List ImageResult)
    (id : String) (h : resultRecorded t id) : resultRecorded (updateImageCache t rs) id := by
  induction rs generalizing t with
  | nil => exact h
  | cons r rest ih =>
    exact ih (applyImageResult t r) (resultRecorded_applyImageResult_mono t r id h)

theorem resultRecorded_updateImageCache_mem (t : StoryState) (rs : List ImageResult) :
    ∀ r ∈ rs, resultRecorded (updateImageCache t rs) r.cardId := by
  induction rs generalizing t with
  | nil => intro r hr; simp at hr
  | cons r rest ih =>
    intro r2 hr2
    rcases List.mem_cons.mp hr2 with h | h
    · subst h
      exact resultRecorded_updateImageCache_mono (applyImageResult t r2) rest r2.cardId
        (resultRecorded_applyImageResult_self t r2)
    · exact ih (applyImageResult t r) r2 h

/-- The five distinct requests of the C3 scenario. -/
def c3Requests : List ImageGenerationRequest :=
  [⟨"a", "p", ColorTreatment.monochrome⟩, ⟨"b", "p", ColorTreatment.monochrome⟩,
   ⟨"c", "p", ColorTreatment.monochrome⟩, ⟨"d", "p", ColorTreatment.monochrome⟩,
   ⟨"e", "p", ColorTreatment.monochrome⟩]

/-- The C3 scenario generation outcomes: a, b and c succeed, d and e fail. -/
def c3Gen : ImageGenerationRequest → Option String :=
  fun r =>
    if r.cardId = "d" ∨ r.cardId = "e" then none
    else some (String.append "blob:" r.cardId)

/-- The C3 scenario start state: the five requests enqueued in order. -/
def c3Start : StoryState := c3Requests.foldl queueImageGeneration initialStoryState

/-- The C3 scenario state after one, two and three dispatcher ticks. -/
def c3T1 : StoryState := tick 2 c3Gen c3Start

/-- See c3T1. -/
def c3T2 : StoryState := tick 2 c3Gen c3T1

/-- See c3T1. -/
def c3T3 : StoryState := tick 2 c3Gen c3T2

/-- C3: a dispatcher tick removes exactly the first min(N, length) requests
from the front of the queue in FIFO order and records a terminal result for
each of them; and the concrete scenario: five distinct enqueued ids with
N = 2 are drained by exactly three ticks in batches of 2, 2 and 1, a fourth
tick is a no-op, and every id ends cached or errored and not loading. -/
theorem claim_C3_fifo_batches (N : Nat) (gen : ImageGenerationRequest → Option String)
    (s : StoryState) (hproc : s.isQueueProcessing = false)
    (hq : s.imageGenerationQueue ≠ []) :
    (tick N gen s).imageGenerationQueue = s.imageGenerationQueue.drop N ∧
    (∀ r ∈ s.imageGenerationQueue.take N, resultRecorded (tick N gen s) r.cardId) ∧
    (c3Start.imageGenerationQueue.length = 5 ∧
     (c3Start.imageGenerationQueue.take 2).length = 2 ∧
     c3T1.imageGenerationQueue.length = 3 ∧
     (c3T1.imageGenerationQueue.take 2).length = 2 ∧
     c3T2.imageGenerationQueue.length = 1 ∧
     (c3T2.imageGenerationQueue.take 2).length = 1 ∧
     c3T3.imageGenerationQueue = [] ∧
     tick 2 c3Gen c3T3 = c3T3 ∧
     (∀ r ∈ c3Requests, resultRecorded c3T3 r.cardId)) := by
  have hguard : (s.isQueueProcessing || s.imageGenerationQueue.isEmpty) = false := by
    simp [hproc, hq]
  have htick : tick N gen s =
      setIsQueueProcessing
        (updateImageCache
          (setImageGenerationQueue (setIsQueueProcessing s true)
            (s.imageGenerationQueue.drop N))
          ((s.imageGenerationQueue.take N).map
            (fun r => ImageResult.mk r.cardId (gen r) (gen r).isNone)))
        false := by
    unfold tick processImageGenerationQueue
    rw [hguard]
    simp
  refine ⟨?_, ?_, by decide⟩
  · rw [htick]
    show (updateImageCache _ _).imageGenerationQueue = _
    rw [updateImageCache_queue]
    rfl
  · intro r hr
    have hm : ImageResult.mk r.cardId (gen r) (gen r).isNone ∈
        (s.imageGenerationQueue.take N).map
          (fun r => ImageResult.mk r.cardId (gen r) (gen r).isNone) :=
      List.mem_map_of_mem _ hr
    have hrec := resultRecorded_updateImageCache_mem
      (setImageGenerationQueue (setIsQueueProcessing s true)
        (s.imageGenerationQueue.drop N)) _ _ hm
    rw [htick]
    exact hrec

/-- Witness for C3: the first scenario tick pops the first two requests and
records a terminal result for id a. -/
theorem claim_C3_witness :
    (tick 2 c3Gen c3Start).imageGenerationQueue
      = c3Start.imageGenerationQueue.drop 2 ∧
    resultRecorded (tick 2 c3Gen c3Start) "a" := by
  have h := claim_C3_fifo_batches 2 c3Gen c3Start (by decide) (by decide)
  exact ⟨h.1, h.2.1 ⟨"a", "p", ColorTreatment.monochrome⟩ (by decide)⟩

-- ## Claim C8: idempotent hydration

/-- The contribution of one persisted item to the hydration payload. -/
def hydrateSelect (existing : JsMap String) (mkUrl : Blob → String)
    (item : PersistedImage) : Option (String × String) :=
  match item.blob with
  | some b =>
    if truthyOptStr (jsGet existing item.id) then none
    else some (item.id, mkUrl b)
  | none => none

theorem jsGet_eq_none_of_keys {α : Type} (m : JsMap α) (k : String)
    (h : ∀ p ∈ m, p.1 ≠ k) : jsGet m k = none := by
  induction m with
  | nil => rfl
  | cons p rest ih =>
    have hp := h p (List.mem_cons_self p rest)
    simp [jsGet, hp, ih (fun q hq => h q (List.mem_cons_of_mem p hq))]

theorem filterMap_nil_of_none {α β : Type} (f : α → Option β) (l : List α)
    (h : ∀ a ∈ l, f a = none) : l.filterMap f = [] := by
  induction l with
  | nil => rfl
  | cons a rest ih =>
    rw [List.filterMap_cons, h a (List.mem_cons_self a rest),
      ih (fun a2 h2 => h a2 (List.mem_cons_of_mem a h2))]

theorem hydrateSelect_eq_some {existing : JsMap String} {mkUrl : Blob → String}
    {item : PersistedImage} {p : String × String}
    (h : hydrateSelect existing mkUrl item = some p) :
    p.1 = item.id ∧ truthyOptStr (jsGet existing item.id) = false ∧
      ∃ b, item.blob = some b ∧ p.2 = mkUrl b := by
  unfold hydrateSelect at h
  cases hb : item.blob with
  | none =>
    rw [hb] at h
    simp at h
  | some b =>
    rw [hb] at h
    by_cases ht : truthyOptStr (jsGet existing item.id) = true
    · simp [ht] at h
    · simp only [Bool.not_eq_true] at ht
      simp only [ht, Bool.false_eq_true, if_false, Option.some_inj] at h
      exact ⟨by rw [← h], ht, b, rfl, by rw [← h]⟩

theorem hydrateFold_eq (existing : JsMap String) (mkUrl : Blob → String) :
    ∀ (persisted : List PersistedImage) (acc : JsMap String),
      (∀ it ∈ persisted, jsGet acc it.id = none) →
      (persisted.map PersistedImage.id).Nodup →
      persisted.foldl (hydrateStep existing mkUrl) acc
        = acc ++ persisted.filterMap (hydrateSelect existing mkUrl) := by
  intro persisted
  induction persisted with
  | nil =>
    intro acc _ _
    simp
  | cons it rest ih =>
    intro acc hacc hnd
    simp only [List.map_cons, List.nodup_cons] at hnd
    have hrest : ∀ it2 ∈ rest, jsGet acc it2.id = none :=
      fun it2 h2 => hacc it2 (List.mem_cons_of_mem it h2)
    rw [List.foldl_cons]
    cases hb : it.blob with
    | none =>
      rw [show hydrateStep existing mkUrl acc it = acc from by simp [hydrateStep, hb],
        ih acc hrest hnd.2]
      simp [hydrateSelect, hb]
    | some b =>
      by_cases ht : truthyOptStr (jsGet existing it.id) = true
      · rw [show hydrateStep existing mkUrl acc it = acc from by simp [hydrateStep, hb, ht],
          ih acc hrest hnd.2]
        simp [hydrateSelect, hb, ht]
      · have hfresh : ∀ it2 ∈ rest, jsGet (acc ++ [(it.id, mkUrl b)]) it2.id = none := by
          intro it2 h2
          rw [jsGet_append_of_none acc _ it2.id (hrest it2 h2)]
          have hne : it.id ≠ it2.id :=
            fun he => hnd.1 (he ▸ List.mem_map.mpr ⟨it2, h2, rfl⟩)
          simp [jsGet, hne]
        have hset : hydrateStep existing mkUrl acc it = acc ++ [(it.id, mkUrl b)] := by
          rw [show hydrateStep existing mkUrl acc it = jsSet acc it.id (mkUrl b) from by
            simp [hydrateStep, hb, ht]]
          exact jsSet_eq_append_of_none acc it.id (mkUrl b)
            (hacc it (List.mem_cons_self it rest))
        rw [hset, ih (acc ++ [(it.id, mkUrl b)]) hfresh hnd.2]
        simp [hydrateSelect, hb, ht]

theorem hydratePayload_eq (existing : JsMap String) (mkUrl : Blob → String)
    (persisted : List PersistedImage) (hnd : (persisted.map PersistedImage.id).Nodup) :
    hydratePayload existing persisted mkUrl
      = persisted.filterMap (hydrateSelect existing mkUrl) := by
  unfold hydratePayload
  rw [hydrateFold_eq existing mkUrl persisted [] (fun it _ => rfl) hnd]
  simp

theorem hydrate_filterMap_length (existing : JsMap String) (mkUrl : Blob → String) :
    ∀ l : List PersistedImage, (∀ it ∈ l, it.blob.isSome) →
      (l.filterMap (hydrateSelect existing mkUrl)).length
        + l.countP (fun it => truthyOptStr (jsGet existing it.id)) = l.length := by
  intro l
  induction l with
  | nil => intro _; simp
  | cons it rest ih =>
    intro hb
    obtain ⟨b, hbb⟩ := Option.isSome_iff_exists.mp (hb it (List.mem_cons_self it rest))
    have ihr := ih (fun it2 h2 => hb it2 (List.mem_cons_of_mem it h2))
    by_cases ht : truthyOptStr (jsGet existing it.id) = true
    · have hsel : hydrateSelect existing mkUrl it = none := by
        simp [hydrateSelect, hbb, ht]
      simp [List.filterMap_cons, List.countP_cons, hsel, ht]
      omega
    · have hsel : hydrateSelect existing mkUrl it = some (it.id, mkUrl b) := by
        simp [hydrateSelect, hbb, ht]
      simp [List.filterMap_cons, List.countP_cons, hsel, ht]
      omega

theorem hydrate_keys_sublist (existing : JsMap String) (mkUrl : Blob → String) :
    ∀ l : List PersistedImage,
      ((l.filterMap (hydrateSelect existing mkUrl)).map Prod.fst).Sublist
        (l.map PersistedImage.id) := by
  intro l
  induction l with
  | nil => simp
  | cons it rest ih =>
    cases hb : it.blob with
    | none =>
      rw [List.filterMap_cons,
        show hydrateSelect existing mkUrl it = none from by simp [hydrateSelect, hb],
        List.map_cons]
      exact ih.cons it.id
    | some b =>
      by_cases ht : truthyOptStr (jsGet existing it.id) = true
      · rw [List.filterMap_cons,
          show hydrateSelect existing mkUrl it = none from by simp [hydrateSelect, hb, ht],
          List.map_cons]
        exact ih.cons it.id
      · rw [List.filterMap_cons,
          show hydrateSelect existing mkUrl it = some (it.id, mkUrl b) from by
            simp [hydrateSelect, hb, ht],
          List.map_cons, List.map_cons]
        exact ih.cons₂ it.id

theorem jsGet_jsMerge_of_none {α : Type} (a b : JsMap α) (k : String)
    (h : jsGet b k = none) : jsGet (jsMerge a b) k = jsGet a k := by
  induction b generalizing a with
  | nil => rfl
  | cons p rest ih =>
    have hp : p.1 ≠ k := by
      intro he
      simp [jsGet, he] at h
    have hr : jsGet rest k = none := by
      simpa [jsGet, hp] using h
    show jsGet (jsMerge (jsSet a p.1 p.2) rest) k = _
    rw [ih (jsSet a p.1 p.2) hr, jsGet_jsSet_other _ _ _ _ hp]

theorem jsGet_jsMerge_of_some {α : Type} (a b : JsMap α) (k : String) (v : α)
    (hnd : (b.map Prod.fst).Nodup) (h : jsGet b k = some v) :
    jsGet (jsMerge a b) k = some v := by
  induction b generalizing a with
  | nil => simp [jsGet] at h
  | cons p rest ih =>
    simp only [List.map_cons, List.nodup_cons] at hnd
    by_cases hp : p.1 = k
    · have hv : p.2 = v := by
        have := h
        simp only [jsGet, if_pos hp, Option.some_inj] at this
        exact this
      have hrk : jsGet rest k = none := by
        apply jsGet_eq_none_of_keys
        intro q hq he
        exact hnd.1 (List.mem_map.mpr ⟨q, hq, he.trans hp.symm⟩)
      show jsGet (jsMerge (jsSet a p.1 p.2) rest) k = some v
      rw [jsGet_jsMerge_of_none (jsSet a p.1 p.2) rest k hrk, hp, hv, jsGet_jsSet_same]
    · have hr : jsGet rest k = some v := by
        simpa [jsGet, hp] using h
      show jsGet (jsMerge (jsSet a p.1 p.2) rest) k = some v
      exact ih (jsSet a p.1 p.2) hnd.2 hr

/-- C8: hydration creates a handle only for persisted ids with no (truthy)
existing imageUrls entry — the number of created handles plus the number of
already-cached persisted ids equals the number of persisted ids — existing
entries are left untouched, and running hydration a second time immediately
afterwards creates zero additional handles. -/
theorem claim_C8_hydration_idempotent (s : StoryState)
    (persisted : List PersistedImage) (mkUrl : Blob → String)
    (hnd : (persisted.map PersistedImage.id).Nodup)
    (hblob : ∀ it ∈ persisted, it.blob.isSome)
    (hurl : ∀ it ∈ persisted, ∀ b, it.blob = some b → mkUrl b ≠ "") :
    (hydratePayload s.imageUrls persisted mkUrl).length
        + persisted.countP (fun it => truthyOptStr (jsGet s.imageUrls it.id))
        = persisted.length ∧
    (∀ id, truthyOptStr (jsGet s.imageUrls id) = true →
      jsGet (hydrateImageCache persisted mkUrl s).imageUrls id = jsGet s.imageUrls id) ∧
    hydratePayload (hydrateImageCache persisted mkUrl s).imageUrls persisted mkUrl = [] := by
  have hpay := hydratePayload_eq s.imageUrls mkUrl persisted hnd
  have hkeysnd : ((persisted.filterMap (hydrateSelect s.imageUrls mkUrl)).map Prod.fst).Nodup :=
    hnd.sublist (hydrate_keys_sublist s.imageUrls mkUrl persisted)
  have huntouched : ∀ id, truthyOptStr (jsGet s.imageUrls id) = true →
      jsGet (hydrateImageCache persisted mkUrl s).imageUrls id = jsGet s.imageUrls id := by
    intro id ht
    have hnone : jsGet (hydratePayload s.imageUrls persisted mkUrl) id = none := by
      rw [hpay]
      apply jsGet_eq_none_of_keys
      intro p hp he
      obtain ⟨it, hit, hsel⟩ := List.mem_filterMap.mp hp
      obtain ⟨hpid, hfalse, _⟩ := hydrateSelect_eq_some hsel
      rw [hpid.symm.trans he] at hfalse
      rw [ht] at hfalse
      exact Bool.true_eq_false.mp hfalse
    show jsGet (jsMerge s.imageUrls (hydratePayload s.imageUrls persisted mkUrl)) id
      = jsGet s.imageUrls id
    exact jsGet_jsMerge_of_none s.imageUrls _ id hnone
  refine ⟨?_, huntouched, ?_⟩
  · rw [hpay]
    exact hydrate_filterMap_length s.imageUrls mkUrl persisted hblob
  · rw [hydratePayload_eq _ mkUrl persisted hnd]
    apply filterMap_nil_of_none
    intro it hit
    obtain ⟨b, hbb⟩ := Option.isSome_iff_exists.mp (hblob it hit)
    have htr : truthyOptStr
        (jsGet (hydrateImageCache persisted mkUrl s).imageUrls it.id) = true := by
      by_cases ht : truthyOptStr (jsGet s.imageUrls it.id) = true
      · rw [huntouched it.id ht]
        exact ht
      · have hmem : (it.id, mkUrl b) ∈ persisted.filterMap (hydrateSelect s.imageUrls mkUrl) :=
          List.mem_filterMap.mpr ⟨it, hit, by simp [hydrateSelect, hbb, ht]⟩
        have hpget : jsGet (persisted.filterMap (hydrateSelect s.imageUrls mkUrl)) it.id
            = some (mkUrl b) :=
          jsGet_of_mem_of_nodup _ _ _ hmem hkeysnd
        have hmerged : jsGet (hydrateImageCache persisted mkUrl s).imageUrls it.id
            = some (mkUrl b) := by
          show jsGet (jsMerge s.imageUrls (hydratePayload s.imageUrls persisted mkUrl)) it.id
            = some (mkUrl b)
          rw [hpay]
          exact jsGet_jsMerge_of_some s.imageUrls _ it.id (mkUrl b) hkeysnd hpget
        rw [hmerged]
        simp [truthyOptStr, hurl it hit b hbb]
    unfold hydrateSelect
    rw [hbb]
    simp [htr]

/-- The C8 witness start state: ids a and b already have in-memory handles. -/
def c8State : StoryState :=
  { imageUrls := [("a", "ua"), ("b", "ub")], imageErrors := [], imageLoading := [],
    imageGenerationQueue := [], isQueueProcessing := false }

/-- The C8 witness persisted store: three ids, two of which already have
handles. -/
def c8Persisted : List PersistedImage :=
  [⟨"a", some [1]⟩, ⟨"b", some [2]⟩, ⟨"c", some [3]⟩]

/-- The C8 witness object-URL factory. -/
def c8MkUrl : Blob → String := fun _ => "blob:x"

/-- Witness for C8: with 3 persisted ids of which 2 already have handles,
hydration creates exactly 1 handle, and a second hydration creates none. -/
theorem claim_C8_witness :
    (hydratePayload c8State.imageUrls c8Persisted c8MkUrl).length
        + c8Persisted.countP (fun it => truthyOptStr (jsGet c8State.imageUrls it.id))
        = c8Persisted.length ∧
    (hydratePayload c8State.imageUrls c8Persisted c8MkUrl).length = 1 ∧
    hydratePayload (hydrateImageCache c8Persisted c8MkUrl c8State).imageUrls
      c8Persisted c8MkUrl = [] := by
  have h := claim_C8_hydration_idempotent c8State c8Persisted c8MkUrl
    (by decide) (by decide) (fun it hit b hb => by simp [c8MkUrl])
  exact ⟨h.1, by decide, h.2.2⟩
